import Mathlib

/-!
Verification of the receipt-tracker extraction pipeline.

Shallow embedding of `src/core/parsing.py` (class `TextExtractor`) and
`src/core/models.py` (pydantic models `Receipt` and `ProcessingResult`).
Python strings are modelled as `List Char` (ASCII character classes),
Python `float` and `Decimal` values as exact rationals, and the external
libraries (tesseract, PyMuPDF, dateutil, the filesystem) as explicit
parameters of the embedded functions.  Regular-expression matching is
embedded with Python's leftmost / greedy / backtracking semantics,
specialised to the concrete patterns appearing in the source.
-/

/-- Python whitespace (`\s`, `str.strip`), ASCII model. -/
def isSp (c : Char) : Bool :=
  c = ' ' || c = '\t' || c = '\n' || c = '\r' || c.toNat = 11 || c.toNat = 12

/-- Python `str.strip()`: drop leading and trailing whitespace. -/
def pyStrip (cs : List Char) : List Char :=
  ((cs.dropWhile isSp).reverse.dropWhile isSp).reverse

/-- Python `str.lower()` (ASCII model). -/
def lowerAll (cs : List Char) : List Char := cs.map Char.toLower

/-- Python `\w` word character (ASCII model): letter, digit or underscore. -/
def isWordChar (c : Char) : Bool := c.isAlphanum || c = '_'

/-- First success of `k` over the candidate list, in order.  Used to model
the order in which a backtracking regex engine explores alternatives. -/
def pickFirst {α β : Type} : List α → (α → Option β) → Option β
  | [], _ => none
  | a :: as, k =>
    match k a with
    | some b => some b
    | none => pickFirst as k

/-- Candidate splits for a greedy bounded run `p{lo,hi}`: longest first,
exactly the order a backtracking engine tries them. -/
def runOpts (p : Char → Bool) (lo hi : Nat) (cs : List Char) : List (List Char × List Char) :=
  let m := min hi (cs.takeWhile p).length
  if m < lo then []
  else (List.range (m + 1 - lo)).map (fun i => (cs.take (m - i), cs.drop (m - i)))

/-- Greedy number of `(?:,\d{3})` repetitions at the head. -/
def commaGroups : List Char → Nat
  | ',' :: a :: b :: c :: rest =>
    if a.isDigit && b.isDigit && c.isDigit then commaGroups rest + 1 else 0
  | _ => 0

/-- Candidate splits for `(?:,\d{3})*`: greedy repetition count first. -/
def commaOpts (cs : List Char) : List (List Char × List Char) :=
  let j := commaGroups cs
  (List.range (j + 1)).map (fun i => (cs.take (4 * (j - i)), cs.drop (4 * (j - i))))

/-- Match `\.\d{2}` exactly at the head. -/
def decHere : List Char → Option (List Char × List Char)
  | '.' :: a :: b :: rest =>
    if a.isDigit && b.isDigit then some (['.', a, b], rest) else none
  | _ => none

/-- Candidates for the optional `(?:\.\d{2})?`: present first, then empty. -/
def decOpts (cs : List Char) : List (List Char × List Char) :=
  match decHere cs with
  | some p => [p, ([], cs)]
  | none => [([], cs)]

/-- Backtracking candidates for `\d{1,3}(?:,\d{3})*(?:\.\d{2})?`
(the number shape shared by the amount patterns). -/
def numOptCands (cs : List Char) : List (List Char × List Char) :=
  (runOpts Char.isDigit 1 3 cs).flatMap (fun dc =>
    (commaOpts dc.2).flatMap (fun cc =>
      (decOpts cc.2).map (fun fc => (dc.1 ++ cc.1 ++ fc.1, fc.2))))

/-- `amount_patterns[0]`, `r'\$\s*(\d{1,3}(?:,\d{3})*(?:\.\d{2})?)'`,
tried at the head; returns (captured group, rest of input). -/
def tryAmt1 : List Char → Option (List Char × List Char)
  | '$' :: r1 =>
    match numOptCands (r1.dropWhile isSp) with
    | g :: _ => some g
    | [] => none
  | _ => none

/-- `amount_patterns[1]`, `r'(\d{1,3}(?:,\d{3})*(?:\.\d{2})?)\s*\$'`. -/
def tryAmt2 (cs : List Char) : Option (List Char × List Char) :=
  pickFirst (numOptCands cs) (fun gc =>
    match gc.2.dropWhile isSp with
    | '$' :: r => some (gc.1, r)
    | _ => none)

/-- Case-insensitive literal match (the patterns run under re.IGNORECASE). -/
def matchCI : List Char → List Char → Option (List Char)
  | [], cs => some cs
  | _ :: _, [] => none
  | l :: ls, c :: cs => if l.toLower = c.toLower then matchCI ls cs else none

/-- `amount_patterns[2]` and `[3]`:
`r'KW[:\s]*\$?\s*(\d{1,3}(?:,\d{3})*(?:\.\d{2})?)'` for a keyword KW. -/
def tryAmtKw (kw : List Char) (cs : List Char) : Option (List Char × List Char) :=
  (matchCI kw cs).bind (fun r1 =>
    let r2 := r1.dropWhile (fun c => c = ':' || isSp c)
    let r3 := match r2 with
      | '$' :: t => t
      | _ => r2
    match numOptCands (r3.dropWhile isSp) with
    | g :: _ => some g
    | [] => none)

/-- `amount_patterns[4]`, `r'(\d{1,3}(?:,\d{3})*\.\d{2})'`
(decimal part required). -/
def tryAmt5 (cs : List Char) : Option (List Char × List Char) :=
  pickFirst (runOpts Char.isDigit 1 3 cs) (fun dc =>
    pickFirst (commaOpts dc.2) (fun cc =>
      (decHere cc.2).map (fun fc => (dc.1 ++ cc.1 ++ fc.1, fc.2))))

/-- `re.findall` scan: try the matcher at each position left to right and
skip past every non-overlapping match.  All of the matchers consume at
least one character on success, so fuel `length + 1` never runs out. -/
def scanAll (tryAt : List Char → Option (List Char × List Char)) :
    Nat → List Char → List (List Char)
  | 0, _ => []
  | _ + 1, [] => []
  | fuel + 1, c :: cs =>
    match tryAt (c :: cs) with
    | some (g, rest) => g :: scanAll tryAt fuel rest
    | none => scanAll tryAt fuel cs

def findAll (tryAt : List Char → Option (List Char × List Char)) (cs : List Char) :
    List (List Char) :=
  scanAll tryAt (cs.length + 1) cs

/-- `TextExtractor.amount_patterns` in source order. -/
def amountMatchers : List (List Char → Option (List Char × List Char)) :=
  [tryAmt1, tryAmt2, tryAmtKw "TOTAL".data, tryAmtKw "AMOUNT".data, tryAmt5]

/-- All groups collected by running findall for every amount pattern. -/
def amountMatchGroups (text : List Char) : List (List Char) :=
  (amountMatchers.map (fun m => findAll m text)).flatten

/-- Python `Decimal`, modelled as mantissa × 10^(-exp). -/
structure Dec where
  man : Int
  exp : Nat
deriving DecidableEq, Repr

/-- Numeric value of a `Dec`. -/
def decVal (d : Dec) : ℚ := (d.man : ℚ) / (10 : ℚ) ^ d.exp

def digitsToNat (cs : List Char) : Nat :=
  cs.foldl (fun acc c => acc * 10 + (c.toNat - 48)) 0

/-- `Decimal(s)` for the strings reaching it here (digits with an optional
fractional part); anything else raises InvalidOperation, i.e. `none`. -/
def parseDec (s : List Char) : Option Dec :=
  let ip := s.takeWhile Char.isDigit
  let rest := s.dropWhile Char.isDigit
  match rest with
  | [] => if ip.isEmpty then none else some ⟨digitsToNat ip, 0⟩
  | '.' :: fp =>
    if fp.all Char.isDigit && (!ip.isEmpty || !fp.isEmpty) then
      some ⟨digitsToNat (ip ++ fp), fp.length⟩
    else none
  | _ => none

/-- `match.replace(',', '').replace('$', '').strip()`. -/
def cleanAmount (g : List Char) : List Char :=
  pyStrip ((g.filter (fun c => c ≠ ',')).filter (fun c => c ≠ '$'))

/-- The sane range check `Decimal('0.01') <= amount <= Decimal('10000.00')`. -/
def amountInRange (d : Dec) : Bool :=
  decide ((1 : ℚ) / 100 ≤ decVal d) && decide (decVal d ≤ 10000)

/-- The `amounts_found` list built by `TextExtractor._extract_amount`. -/
def amountsFound (text : List Char) : List Dec :=
  (amountMatchGroups text).filterMap (fun g =>
    (parseDec (cleanAmount g)).bind (fun d =>
      if amountInRange d then some d else none))

/-- Python `max` over a non-empty sequence: keep the first element and
replace it whenever a strictly larger one appears. -/
def foldMaxBy {α : Type} (key : α → ℚ) (a : α) : List α → α
  | [] => a
  | x :: xs => foldMaxBy key (if key a < key x then x else a) xs

/-- `TextExtractor._extract_amount`. -/
def extract_amount (text : List Char) : Dec :=
  match amountsFound text with
  | [] => ⟨1, 2⟩
  | a :: as => foldMaxBy decVal a as

/-- `re.findall` scan threading the previous character, needed for the
`\b` word-boundary assertions of the date patterns.  A successful match
also reports its last character. -/
def scanAllB (tryAt : Option Char → List Char → Option (List Char × Char × List Char)) :
    Nat → Option Char → List Char → List (List Char)
  | 0, _, _ => []
  | _ + 1, _, [] => []
  | fuel + 1, prev, c :: cs =>
    match tryAt prev (c :: cs) with
    | some (g, lc, rest) => g :: scanAllB tryAt fuel (some lc) rest
    | none => scanAllB tryAt fuel (some c) cs

def findAllB (tryAt : Option Char → List Char → Option (List Char × Char × List Char))
    (cs : List Char) : List (List Char) :=
  scanAllB tryAt (cs.length + 1) none cs

/-- `\b` before a word character: previous character absent or non-word. -/
def bdryBefore : Option Char → Bool
  | none => true
  | some c => !isWordChar c

/-- `\b` after a word character: next character absent or non-word. -/
def bdryAfter : List Char → Bool
  | [] => true
  | c :: _ => !isWordChar c

/-- The date separator class: slash or dash. -/
def isDateSep (c : Char) : Bool := c = '/' || c = '-'

/-- Exactly `n` characters satisfying `p` at the head. -/
def exactRun (p : Char → Bool) (n : Nat) (cs : List Char) :
    Option (List Char × List Char) :=
  let t := cs.take n
  if t.length = n && t.all p then some (t, cs.drop n) else none

/-- `\s+` at the head (greedy; everything after it here needs a
non-whitespace character, so no backtracking is required). -/
def wsRun1 (cs : List Char) : Option (List Char × List Char) :=
  let w := cs.takeWhile isSp
  if w.isEmpty then none else some (w, cs.dropWhile isSp)

/-- Candidates for `,?`: with the comma first, then without. -/
def commaOpt (cs : List Char) : List (List Char × List Char) :=
  match cs with
  | ',' :: r => [([','], r), ([], cs)]
  | _ => [([], cs)]

/-- `date_patterns[0]`: digits{1,2} sep digits{1,2} sep digits{2,4}
between word boundaries, sep being a slash or a dash. -/
def tryDate1 (prev : Option Char) (cs : List Char) :
    Option (List Char × Char × List Char) :=
  if bdryBefore prev then
    pickFirst (runOpts Char.isDigit 1 2 cs) (fun dc =>
      match dc.2 with
      | s1 :: r2 =>
        if isDateSep s1 then
          pickFirst (runOpts Char.isDigit 1 2 r2) (fun ec =>
            match ec.2 with
            | s2 :: r4 =>
              if isDateSep s2 then
                pickFirst (runOpts Char.isDigit 2 4 r4) (fun yc =>
                  if bdryAfter yc.2 then
                    some (dc.1 ++ s1 :: ec.1 ++ s2 :: yc.1, yc.1.getLastD '0', yc.2)
                  else none)
              else none
            | [] => none)
        else none
      | [] => none)
  else none

/-- `date_patterns[1]`: digits{4} sep digits{1,2} sep digits{1,2}
between word boundaries, sep being a slash or a dash. -/
def tryDate2 (prev : Option Char) (cs : List Char) :
    Option (List Char × Char × List Char) :=
  if bdryBefore prev then
    (exactRun Char.isDigit 4 cs).bind (fun yc =>
      match yc.2 with
      | s1 :: r2 =>
        if isDateSep s1 then
          pickFirst (runOpts Char.isDigit 1 2 r2) (fun mc =>
            match mc.2 with
            | s2 :: r4 =>
              if isDateSep s2 then
                pickFirst (runOpts Char.isDigit 1 2 r4) (fun dc =>
                  if bdryAfter dc.2 then
                    some (yc.1 ++ s1 :: mc.1 ++ s2 :: dc.1, dc.1.getLastD '0', dc.2)
                  else none)
              else none
            | [] => none)
        else none
      | [] => none)
  else none

/-- `date_patterns[2]`, `r'\b([A-Za-z]{3,9}\s+\d{1,2},?\s+\d{4})\b'`. -/
def tryDate3 (prev : Option Char) (cs : List Char) :
    Option (List Char × Char × List Char) :=
  if bdryBefore prev then
    pickFirst (runOpts Char.isAlpha 3 9 cs) (fun lc =>
      (wsRun1 lc.2).bind (fun w1 =>
        pickFirst (runOpts Char.isDigit 1 2 w1.2) (fun dc =>
          pickFirst (commaOpt dc.2) (fun cc =>
            (wsRun1 cc.2).bind (fun w2 =>
              (exactRun Char.isDigit 4 w2.2).bind (fun yc =>
                if bdryAfter yc.2 then
                  some (lc.1 ++ w1.1 ++ dc.1 ++ cc.1 ++ w2.1 ++ yc.1,
                    yc.1.getLastD '0', yc.2)
                else none))))))
  else none

/-- `date_patterns[3]`, `r'\b(\d{1,2}\s+[A-Za-z]{3,9}\s+\d{4})\b'`. -/
def tryDate4 (prev : Option Char) (cs : List Char) :
    Option (List Char × Char × List Char) :=
  if bdryBefore prev then
    pickFirst (runOpts Char.isDigit 1 2 cs) (fun dc =>
      (wsRun1 dc.2).bind (fun w1 =>
        pickFirst (runOpts Char.isAlpha 3 9 w1.2) (fun lc =>
          (wsRun1 lc.2).bind (fun w2 =>
            (exactRun Char.isDigit 4 w2.2).bind (fun yc =>
              if bdryAfter yc.2 then
                some (dc.1 ++ w1.1 ++ lc.1 ++ w2.1 ++ yc.1, yc.1.getLastD '0', yc.2)
              else none)))))
  else none

/-- All matches of `TextExtractor.date_patterns`, in source order. -/
def dateMatchGroups (text : List Char) : List (List Char) :=
  findAllB tryDate1 text ++ findAllB tryDate2 text ++
    findAllB tryDate3 text ++ findAllB tryDate4 text

/-- Python `datetime`, modelled at day granularity. -/
structure PyDate where
  year : Nat
  month : Nat
  day : Nat
deriving DecidableEq, Repr

/-- Chronological order on dates (lexicographic). -/
def pyDateLe (a b : PyDate) : Bool :=
  a.year < b.year ||
    (a.year = b.year &&
      (a.month < b.month || (a.month = b.month && a.day ≤ b.day)))

/-- Strict chronological order on dates. -/
def pyDateLt (a b : PyDate) : Bool :=
  a.year < b.year ||
    (a.year = b.year &&
      (a.month < b.month || (a.month = b.month && a.day < b.day)))

/-- The `dates_found` list built by `TextExtractor._extract_date`: every
regex match is handed to the (external, fuzzy) `dateutil` parser —
modelled by the `parse` parameter, `none` standing for a parse failure —
and kept when it is not in the future and its year is at least 2000. -/
def validDates (parse : List Char → Option PyDate) (now : PyDate) (text : List Char) :
    List PyDate :=
  (dateMatchGroups text).filterMap (fun m =>
    (parse m).bind (fun d =>
      if pyDateLe d now && decide (2000 ≤ d.year) then some d else none))

/-- Python `max` over dates (keeps the first of equal elements). -/
def foldMaxDate (a : PyDate) : List PyDate → PyDate
  | [] => a
  | x :: xs => foldMaxDate (if pyDateLt a x then x else a) xs

/-- `TextExtractor._extract_date`: most recent valid date, else `now`. -/
def extract_date (parse : List Char → Option PyDate) (now : PyDate)
    (text : List Char) : PyDate :=
  match validDates parse now text with
  | [] => now
  | d :: ds => foldMaxDate d ds

/-- Python `text.split(newline)` (keeps empty pieces). -/
def splitNl : Nat → List Char → List (List Char)
  | 0, _ => []
  | fuel + 1, cs =>
    let w := cs.takeWhile (fun c => c ≠ '\n')
    match cs.dropWhile (fun c => c ≠ '\n') with
    | [] => [w]
    | _ :: r => w :: splitNl fuel r

/-- Python `text.split(newline)` with enough fuel. -/
def pyLines (cs : List Char) : List (List Char) := splitNl (cs.length + 1) cs

/-- Python `str.split()` (no argument): split on whitespace runs,
discarding empty pieces. -/
def pySplitWsGo : Nat → List Char → List (List Char)
  | 0, _ => []
  | fuel + 1, cs =>
    let cs1 := cs.dropWhile isSp
    let w := cs1.takeWhile (fun c => !isSp c)
    if w.isEmpty then [] else w :: pySplitWsGo fuel (cs1.dropWhile (fun c => !isSp c))

def pySplitWs (cs : List Char) : List (List Char) := pySplitWsGo (cs.length + 1) cs

/-- Python `sep.join(words)`. -/
def pyJoin (sep : List Char) : List (List Char) → List Char
  | [] => []
  | [w] => w
  | w :: ws => w ++ sep ++ pyJoin sep ws

/-- Python `str.title()` on a word (ASCII model): upper-case a letter that
follows a non-letter, lower-case a letter that follows a letter. -/
def pyTitleGo : Bool → List Char → List Char
  | _, [] => []
  | prevAlpha, c :: cs =>
    (if c.isAlpha then (if prevAlpha then c.toLower else c.toUpper) else c) ::
      pyTitleGo c.isAlpha cs

def pyTitle (w : List Char) : List Char := pyTitleGo false w

/-- `re.sub` of the class of characters other than word characters,
whitespace, ampersand, apostrophe and dash by a space
(`TextExtractor._extract_vendor`). -/
def cleanLine (cs : List Char) : List Char :=
  cs.map (fun c =>
    if isWordChar c || isSp c || c = '&' || c = '\'' || c = '-' then c else ' ')

/-- `TextExtractor.vendor_stop_words`. -/
def vendor_stop_words : List (List Char) :=
  ["receipt".data, "invoice".data, "bill".data, "total".data, "amount".data,
   "date".data, "time".data, "thank".data, "you".data, "visit".data,
   "again".data, "store".data, "location".data, "address".data]

/-- The stripped non-empty lines of the text
(`[line.strip() for line in text.split(newline) if line.strip()]`). -/
def vendorLines (text : List Char) : List (List Char) :=
  ((pyLines text).map pyStrip).filter (fun l => !l.isEmpty)

/-- One iteration of the vendor loop: the candidate produced by a line,
if any. -/
def vendorFromLine (line : List Char) : Option (List Char) :=
  let cleaned := cleanLine line
  let words := pySplitWs (lowerAll cleaned)
  let filtered := words.filter (fun w => 2 < w.length && !vendor_stop_words.contains w)
  if !filtered.isEmpty && 3 < (pyJoin [' '] filtered).length then
    let vendor_name := pyJoin [' '] (filtered.map pyTitle)
    if vendor_name.length ≤ 200 then some vendor_name else none
  else none

/-- `TextExtractor._extract_vendor`. -/
def extract_vendor (text : List Char) : List Char :=
  match vendorLines text with
  | [] => "Unknown Vendor".data
  | l0 :: rest =>
    match pickFirst ((l0 :: rest).take 5) vendorFromLine with
    | some v => v
    | none => if l0.isEmpty then "Unknown Vendor".data else l0.take 200

/-- `models.CategoryEnum`. -/
inductive Category
  | groceries | restaurants | utilities | transportation | healthcare
  | entertainment | shopping | services | education | travel | other
deriving DecidableEq, Repr

/-- `models.CurrencyEnum`. -/
inductive Currency
  | usd | eur | gbp | cad | aud | jpy | chf | cny
deriving DecidableEq, Repr

/-- Python substring containment (`needle in hay`). -/
def containsSub (needle : List Char) : List Char → Bool
  | [] => needle.isEmpty
  | c :: cs => needle.isPrefixOf (c :: cs) || containsSub needle cs

/-- `models.CATEGORY_KEYWORDS`, in dictionary (insertion) order. -/
def CATEGORY_KEYWORDS : List (Category × List (List Char)) :=
  [(.groceries,
    ["grocery".data, "supermarket".data, "market".data, "food".data, "walmart".data,
     "target".data, "kroger".data, "safeway".data, "whole foods".data,
     "trader joe".data, "costco".data, "sam's club".data]),
   (.restaurants,
    ["restaurant".data, "cafe".data, "coffee".data, "pizza".data, "burger".data,
     "mcdonald".data, "subway".data, "starbucks".data, "dunkin".data, "kfc".data,
     "taco bell".data, "chipotle".data, "dining".data]),
   (.utilities,
    ["electric".data, "gas".data, "water".data, "internet".data, "phone".data,
     "cable".data, "utility".data, "verizon".data, "at&t".data, "comcast".data,
     "spectrum".data, "pge".data, "edison".data]),
   (.transportation,
    ["gas station".data, "fuel".data, "uber".data, "lyft".data, "taxi".data,
     "bus".data, "train".data, "airline".data, "parking".data, "toll".data,
     "shell".data, "chevron".data, "exxon".data, "bp".data]),
   (.healthcare,
    ["pharmacy".data, "hospital".data, "clinic".data, "doctor".data, "medical".data,
     "cvs".data, "walgreens".data, "rite aid".data, "health".data, "dental".data,
     "vision".data]),
   (.entertainment,
    ["movie".data, "theater".data, "netflix".data, "spotify".data, "game".data,
     "entertainment".data, "concert".data, "show".data, "amusement".data,
     "zoo".data, "museum".data]),
   (.shopping,
    ["amazon".data, "ebay".data, "store".data, "mall".data, "clothing".data,
     "electronics".data, "best buy".data, "home depot".data, "lowes".data,
     "macy's".data, "nordstrom".data]),
   (.services,
    ["service".data, "repair".data, "maintenance".data, "cleaning".data,
     "salon".data, "barber".data, "dry clean".data, "laundry".data,
     "professional".data]),
   (.education,
    ["school".data, "university".data, "college".data, "education".data,
     "tuition".data, "books".data, "supplies".data, "course".data,
     "training".data]),
   (.travel,
    ["hotel".data, "motel".data, "airbnb".data, "flight".data, "rental".data,
     "travel".data, "vacation".data, "booking".data, "expedia".data,
     "trip".data])]

/-- Python `max` over category scores (keeps the first maximum, like
`max(items, key=...)` over dictionary order). -/
def foldMaxScore (a : Category × Nat) : List (Category × Nat) → Category × Nat
  | [] => a
  | x :: xs => foldMaxScore (if a.2 < x.2 then x else a) xs

/-- `models.classify_category`. -/
def classify_category (text vendor : List Char) : Category :=
  let combined := lowerAll (text ++ ' ' :: vendor)
  let scores := CATEGORY_KEYWORDS.filterMap (fun p =>
    let s := (p.2.filter (fun kw => containsSub kw combined)).length
    if 0 < s then some (p.1, s) else none)
  match scores with
  | [] => .other
  | p :: ps => (foldMaxScore p ps).1

/-- `models.CURRENCY_PATTERNS`: every pattern is a literal string (after
unescaping), searched case-sensitively inside the lower-cased text. -/
def CURRENCY_PATTERNS : List (Currency × List (List Char)) :=
  [(.usd, ["$".data, "USD".data, "US$".data, "dollar".data]),
   (.eur, ["€".data, "EUR".data, "euro".data]),
   (.gbp, ["£".data, "GBP".data, "pound".data]),
   (.cad, ["CAD".data, "C$".data, "canadian".data]),
   (.aud, ["AUD".data, "A$".data, "australian".data]),
   (.jpy, ["¥".data, "JPY".data, "yen".data]),
   (.chf, ["CHF".data, "swiss".data]),
   (.cny, ["CNY".data, "yuan".data, "rmb".data])]

/-- `models.detect_currency`. -/
def detect_currency (text : List Char) : Currency :=
  match CURRENCY_PATTERNS.find? (fun p =>
      p.2.any (fun pat => containsSub pat (lowerAll text))) with
  | some p => p.1
  | none => .usd

/-- Number of decimal digits, with enough fuel for the recursion. -/
def numDigitsGo : Nat → Nat → Nat
  | 0, _ => 1
  | fuel + 1, n => if n < 10 then 1 else numDigitsGo fuel (n / 10) + 1

/-- Number of decimal digits of a natural number (1 for 0). -/
def numDigits (n : Nat) : Nat := numDigitsGo n n

/-- Banker's rounding to the nearest integer (`decimal.ROUND_HALF_EVEN`,
also Python `round`). -/
def rndHalfEven (q : ℚ) : ℤ :=
  if q - (⌊q⌋ : ℚ) < 1 / 2 then ⌊q⌋
  else if 1 / 2 < q - (⌊q⌋ : ℚ) then ⌊q⌋ + 1
  else if ⌊q⌋ % 2 = 0 then ⌊q⌋ else ⌊q⌋ + 1

/-- Python `round(v, 3)` on the model's exact rationals. -/
def round3 (v : ℚ) : ℚ := (rndHalfEven (v * 1000) : ℚ) / 1000

/-- `Decimal.quantize(Decimal('0.01'))` with the default half-even
rounding: exact when at most two fractional digits are present. -/
def quantize2 (d : Dec) : Dec :=
  if d.exp ≤ 2 then ⟨d.man * 10 ^ (2 - d.exp), 2⟩
  else ⟨rndHalfEven (decVal d * 100), 2⟩

/-- `re.sub` of every whitespace run by a single space: a space is emitted
at the first character of a run only.  The flag records whether the
previous character belonged to a whitespace run. -/
def subWsGo : Bool → List Char → List Char
  | _, [] => []
  | prevWs, c :: cs =>
    if isSp c then
      (if prevWs then subWsGo true cs else ' ' :: subWsGo true cs)
    else c :: subWsGo false cs

/-- `re.sub` of every whitespace run by a single space
(`Receipt.validate_vendor`). -/
def subWs (cs : List Char) : List Char := subWsGo false cs

/-- `datetime.now().replace(year=datetime.now().year - 10)`. -/
def tenYearsBefore (now : PyDate) : PyDate := ⟨now.year - 10, now.month, now.day⟩

/-- pydantic field constraints (`min_length=1`, `max_length=200`) followed
by the custom validator `Receipt.validate_vendor`. -/
def vendorField (v : List Char) : Except (List Char) (List Char) :=
  if v.length < 1 then .error "vendor: ensure min length 1".data
  else if 200 < v.length then .error "vendor: ensure max length 200".data
  else if (pyStrip v).isEmpty then .error "Vendor name cannot be empty".data
  else
    let cleaned := subWs (pyStrip v)
    if 200 < cleaned.length then
      .error "Vendor name too long (max 200 characters)".data
    else .ok cleaned

/-- `Receipt.validate_transaction_date`. -/
def dateField (now v : PyDate) : Except (List Char) PyDate :=
  if !pyDateLe v now then
    .error "Transaction date cannot be in the future".data
  else if pyDateLt v (tenYearsBefore now) then
    .error "Transaction date is too far in the past".data
  else .ok v

/-- pydantic field constraints (`gt=0`, `max_digits=10`,
`decimal_places=2`) followed by the validator `Receipt.validate_amount`
(positivity check, then quantization to two decimal places). -/
def amountField (v : Dec) : Except (List Char) Dec :=
  if decVal v ≤ 0 then .error "amount: ensure greater than 0".data
  else if 2 < v.exp then .error "amount: ensure at most 2 decimal places".data
  else if 10 < numDigits v.man.natAbs then
    .error "amount: ensure at most 10 digits".data
  else if decVal v ≤ 0 then .error "Amount must be positive".data
  else .ok (quantize2 v)

/-- `Receipt.validate_source_file`'s accepted extension list. -/
def valid_extensions : List (List Char) :=
  [".pdf".data, ".jpg".data, ".jpeg".data, ".png".data, ".tiff".data,
   ".bmp".data, ".txt".data]

/-- pydantic field constraint (`min_length=1`) followed by
`Receipt.validate_source_file`. -/
def sourceFileField (v : List Char) : Except (List Char) (List Char) :=
  if v.length < 1 then .error "source_file: ensure min length 1".data
  else if (pyStrip v).isEmpty then .error "Source file name cannot be empty".data
  else if !valid_extensions.any (fun ext => ext.isSuffixOf (lowerAll v)) then
    .error "Invalid file extension".data
  else .ok (pyStrip v)

/-- pydantic field constraints (`ge=0.0`, `le=1.0`) followed by
`Receipt.validate_confidence_score` (round to 3 decimal places). -/
def confidenceField (v : ℚ) : Except (List Char) ℚ :=
  if v < 0 then .error "confidence_score: ensure at least 0".data
  else if 1 < v then .error "confidence_score: ensure at most 1".data
  else .ok (round3 v)

/-- `models.Receipt` (validated data). -/
structure Receipt where
  vendor : List Char
  transaction_date : PyDate
  amount : Dec
  category : Category
  currency : Currency
  source_file : List Char
  extracted_text : Option (List Char)
  confidence_score : ℚ
deriving DecidableEq, Repr

/-- Construction of a `Receipt`: every field runs its constraints and
validators; a validation error is a raised exception. -/
def mkReceipt (now : PyDate) (vendor : List Char) (transaction_date : PyDate)
    (amount : Dec) (category : Category) (currency : Currency)
    (source_file : List Char) (extracted_text : Option (List Char))
    (confidence_score : ℚ) : Except (List Char) Receipt := do
  let v ← vendorField vendor
  let d ← dateField now transaction_date
  let a ← amountField amount
  let s ← sourceFileField source_file
  let c ← confidenceField confidence_score
  .ok ⟨v, d, a, category, currency, s, extracted_text, c⟩

/-- Assignment `receipt.vendor = v` under `validate_assignment = True`. -/
def setVendor (r : Receipt) (v : List Char) : Except (List Char) Receipt :=
  (vendorField v).map (fun v' => { r with vendor := v' })

/-- Assignment `receipt.transaction_date = v`. -/
def setTransactionDate (now : PyDate) (r : Receipt) (v : PyDate) :
    Except (List Char) Receipt :=
  (dateField now v).map (fun d => { r with transaction_date := d })

/-- Assignment `receipt.amount = v`. -/
def setAmount (r : Receipt) (v : Dec) : Except (List Char) Receipt :=
  (amountField v).map (fun a => { r with amount := a })

/-- Assignment `receipt.confidence_score = v`. -/
def setConfidence (r : Receipt) (v : ℚ) : Except (List Char) Receipt :=
  (confidenceField v).map (fun c => { r with confidence_score := c })

/-- Assignment `receipt.extracted_text = t` (no validator on this field). -/
def setExtractedText (r : Receipt) (t : Option (List Char)) : Receipt :=
  { r with extracted_text := t }

/-- `models.ProcessingResult`. -/
structure ProcessingResult where
  success : Bool
  receipt : Option Receipt := none
  error_message : Option (List Char) := none
  processing_time : Option ℚ := none
  warnings : List (List Char) := []
deriving DecidableEq, Repr

/-- The recognition engine's responses for one image, modelling
pytesseract: `engine` is the `image_to_data` call the adapter makes
(an `Except.error` is an exception raised by the engine) and `simple`
is the text a plain whole-image `image_to_string` call would return. -/
structure ImgEnv where
  engine : Except (List Char) (List (List Char × Int))
  simple : Except (List Char) (List Char)

/-- `TextExtractor._process_image`: keep the words whose stripped text is
non-empty, join them with single spaces, and average the positive
per-token confidences, scaled from 0–100 to 0–1; any exception yields
empty text and zero confidence. -/
def process_image (env : ImgEnv) : List Char × ℚ :=
  match env.engine with
  | .error _ => ([], 0)
  | .ok data =>
    let kept := data.filter (fun wc => !(pyStrip wc.1).isEmpty)
    let text_parts := kept.map (fun wc => wc.1)
    let confidences := (kept.map (fun wc => wc.2)).filter (fun c => 0 < c)
    let text := pyJoin [' '] text_parts
    let avg : ℚ :=
      if confidences.isEmpty then 0
      else ((confidences.map (fun c => (c : ℚ))).sum / confidences.length) / 100
    (text, avg)

/-- The direct text layer of a PDF: `page.get_text()` of every page plus
a newline each, concatenated. -/
def pdfTextLayer (pages : List (List Char)) : List Char :=
  (pages.map (fun p => p ++ ['\n'])).flatten

/-- `TextExtractor._pdf_to_ocr`: every page is rasterized at 2x zoom and
sent through `_process_image`; `ocr i` models that result for page `i`.
The document confidence is the average of the page confidences. -/
def pdf_to_ocr (pages : List (List Char)) (ocr : Nat → List Char × ℚ) :
    List Char × ℚ :=
  let results := (List.range pages.length).map ocr
  let text := (results.map (fun r => r.1 ++ ['\n'])).flatten
  let confidences := results.map (fun r => r.2)
  (text, if confidences.isEmpty then 0 else confidences.sum / confidences.length)

/-- `TextExtractor._process_pdf`: direct text extraction over all pages;
if the whole stripped text has fewer than 50 characters, the entire
document is re-processed through OCR. -/
def process_pdf (pages : List (List Char)) (ocr : Nat → List Char × ℚ) :
    List Char × ℚ :=
  let text := pdfTextLayer pages
  if (pyStrip text).length < 50 then pdf_to_ocr pages ocr else (text, 1)

/-- The readable content of a plain-text file: decodable as utf-8, only
as latin-1, or not at all. -/
inductive TxtContent
  | utf8 (s : List Char)
  | latin1 (s : List Char)
  | unreadable

/-- `TextExtractor._process_text_file`. -/
def process_text_file : TxtContent → List Char × ℚ
  | .utf8 s => (s, 1)
  | .latin1 s => (s, 9 / 10)
  | .unreadable => ([], 0)

/-- `Path(filename).suffix`: the final dot-suffix of the last path
component, empty when the dot is missing, leading or trailing. -/
def pySuffix (filename : List Char) : List Char :=
  let name := (filename.reverse.takeWhile (fun c => c ≠ '/')).reverse
  let rev := name.reverse
  let after := rev.takeWhile (fun c => c ≠ '.')
  match rev.dropWhile (fun c => c ≠ '.') with
  | [] => []
  | _ :: before =>
    if before.isEmpty || after.isEmpty then [] else '.' :: after.reverse

/-- `TextExtractor.supported_formats`. -/
def supported_formats : List (List Char) :=
  [".pdf".data, ".jpg".data, ".jpeg".data, ".png".data, ".tiff".data,
   ".bmp".data, ".txt".data]

/-- `TextExtractor.max_file_size` (10 MB). -/
def max_file_size : Nat := 10 * 1024 * 1024

/-- The external world a single `process_file` call interacts with. -/
structure Env where
  getsize : Except (List Char) Nat
  isfile : Bool
  pdfPages : List (List Char)
  pdfOcr : Nat → List Char × ℚ
  img : ImgEnv
  txt : TxtContent
  parse : List Char → Option PyDate
  now : PyDate
  elapsed : ℚ

/-- `TextExtractor._validate_file`; every exception inside it (e.g. from
`os.path.getsize`) is caught and turned into `false`. -/
def validate_file (env : Env) (filename : List Char) : Bool :=
  let ext := lowerAll (pySuffix filename)
  if !supported_formats.contains ext then false
  else
    match env.getsize with
    | .error _ => false
    | .ok sz =>
      if max_file_size < sz then false
      else if !env.isfile then false
      else true

/-- `TextExtractor._extract_receipt_data` followed by the pydantic
`Receipt(...)` construction, whose validation can raise. -/
def extract_receipt_data (env : Env) (text filename : List Char) :
    Except (List Char) Receipt :=
  let vendor := extract_vendor text
  let transaction_date := extract_date env.parse env.now text
  let amount := extract_amount text
  let category := classify_category text vendor
  let currency := detect_currency text
  mkReceipt env.now vendor transaction_date amount category currency filename
    (some text) 0

/-- `TextExtractor` image extensions accepted by the dispatch. -/
def image_extensions : List (List Char) :=
  [".jpg".data, ".jpeg".data, ".png".data, ".tiff".data, ".bmp".data]

/-- The per-format branch of `process_file`; `none` is the trailing
`else` branch for an unsupported extension. -/
def dispatchExtract (env : Env) (ext : List Char) : Option (List Char × ℚ) :=
  if ext = ".pdf".data then some (process_pdf env.pdfPages env.pdfOcr)
  else if image_extensions.contains ext then some (process_image env.img)
  else if ext = ".txt".data then some (process_text_file env.txt)
  else none

/-- The body of `TextExtractor.process_file` inside its `try`: an
`Except.error` is an exception reaching the outer handler. -/
def process_file_body (env : Env) (filename : List Char) :
    Except (List Char) ProcessingResult := do
  if !validate_file env filename then
    return { success := false, error_message := some "File validation failed".data }
  let ext := lowerAll (pySuffix filename)
  match dispatchExtract env ext with
  | none =>
    return { success := false,
             error_message := some ("Unsupported file format: ".data ++ ext) }
  | some (text, confidence) =>
    if (pyStrip text).isEmpty then
      return { success := false,
               error_message := some "No text could be extracted from the file".data }
    else
      let receipt ← extract_receipt_data env text filename
      let receipt ← setConfidence receipt confidence
      let receipt := setExtractedText receipt (some text)
      return { success := true, receipt := some receipt,
               processing_time := some env.elapsed }

/-- `TextExtractor.process_file`: the outer except-handler converts any
exception raised by the body into a failure result. -/
def process_file (env : Env) (filename : List Char) : ProcessingResult :=
  match process_file_body env filename with
  | .ok r => r
  | .error e =>
    { success := false, error_message := some ("Processing error: ".data ++ e) }

/-- No two adjacent whitespace characters. -/
def noWsRun : List Char → Bool
  | c :: d :: rest => !(isSp c && isSp d) && noWsRun (d :: rest)
  | _ => true

/-- Every whitespace character is a plain space. -/
def wsIsSpace (cs : List Char) : Bool := cs.all (fun c => !isSp c || c = ' ')

/-- The invariants claimed of every validated `Receipt`: non-empty
vendor of at most 200 characters with collapsed internal whitespace,
strictly positive amount quantized to exactly two decimal places,
transaction date within the last ten years and not in the future, and a
confidence score in [0, 1] with exactly three decimal places. -/
def ReceiptInv (now : PyDate) (r : Receipt) : Prop :=
  r.vendor ≠ [] ∧ r.vendor.length ≤ 200
  ∧ noWsRun r.vendor = true ∧ wsIsSpace r.vendor = true
  ∧ 0 < r.amount.man ∧ r.amount.exp = 2
  ∧ pyDateLe (tenYearsBefore now) r.transaction_date = true
  ∧ pyDateLe r.transaction_date now = true
  ∧ 0 ≤ r.confidence_score ∧ r.confidence_score ≤ 1
  ∧ (r.confidence_score * 1000).den = 1

/-! ## Concrete inputs used by the witnesses and counterexamples -/

/-- A small dateutil behaviour table for the sample text below. -/
def sampleParse (m : List Char) : Option PyDate :=
  if m = "01/15/2031".data then some ⟨2031, 1, 15⟩
  else if m = "03/10/2024".data then some ⟨2024, 3, 10⟩
  else if m = "05/01/1999".data then some ⟨1999, 5, 1⟩
  else none

/-- A text carrying a future date, a valid date and a pre-horizon date. -/
def sampleDateText : List Char :=
  "exp 01/15/2031 sold 03/10/2024 member since 05/01/1999".data

/-- A fixed clock for the concrete runs. -/
def sampleNow : PyDate := ⟨2026, 10, 12⟩

/-- A base environment for concrete `process_file` runs over a small
readable text file. -/
def baseEnv : Env where
  getsize := .ok 100
  isfile := true
  pdfPages := []
  pdfOcr := fun _ => ([], 0)
  img := ⟨.ok [], .ok []⟩
  txt := .utf8 "STORE\nTOTAL: $23.47".data
  parse := fun _ => none
  now := sampleNow
  elapsed := 1 / 10

/-- An environment whose text file carries only a pre-horizon date, so
that the pydantic date validator raises during `Receipt` construction. -/
def oldDateEnv : Env :=
  { baseEnv with
    txt := .utf8 "STORE\nTOTAL: $23.47 on 01/15/2001".data
    parse := fun m => if m = "01/15/2001".data then some ⟨2001, 1, 15⟩ else none }

/-- An environment holding a blank image: the engine answers with no
recognised words at all. -/
def blankImgEnv : Env :=
  { baseEnv with img := ⟨.ok [], .ok []⟩ }

/-- An image environment in which the recognition engine raises, while a
plain whole-image call would still have produced text. -/
def engineFailImg : ImgEnv :=
  ⟨.error "tesseract error".data, .ok "HELLO".data⟩

/-- A two-page PDF: a rich first page and an empty second page, with an
OCR backend that would recognise text on any rasterized page. -/
def samplePdfPages : List (List Char) :=
  ["Market Receipt with a sufficiently long embedded text layer 01".data, []]

/-- The OCR result for any rasterized page of the sample PDF. -/
def samplePdfOcr : Nat → List Char × ℚ := fun _ => ("OCRTEXT".data, 1 / 2)

/-! ## Helper lemmas -/

theorem foldMaxBy_eq_or_mem {α : Type} (key : α → ℚ) :
    ∀ (l : List α) (a : α), foldMaxBy key a l = a ∨ foldMaxBy key a l ∈ l := by
  intro l
  induction l with
  | nil => intro a; exact Or.inl rfl
  | cons x xs ih =>
    intro a
    rw [foldMaxBy]
    rcases ih (if key a < key x then x else a) with h | h
    · rw [h]
      by_cases hc : key a < key x
      · simp [hc]
      · simp [hc]
    · exact Or.inr (List.mem_cons_of_mem _ h)

theorem le_foldMaxBy {α : Type} (key : α → ℚ) :
    ∀ (l : List α) (a : α), key a ≤ key (foldMaxBy key a l) := by
  intro l
  induction l with
  | nil => intro a; exact le_refl _
  | cons x xs ih =>
    intro a
    rw [foldMaxBy]
    refine le_trans ?_ (ih (if key a < key x then x else a))
    by_cases hc : key a < key x
    · simp [hc]; exact le_of_lt hc
    · simp [hc]

theorem mem_le_foldMaxBy {α : Type} (key : α → ℚ) :
    ∀ (l : List α) (a : α) (y : α), y ∈ l → key y ≤ key (foldMaxBy key a l) := by
  intro l
  induction l with
  | nil => intro a y hy; cases hy
  | cons x xs ih =>
    intro a y hy
    rw [foldMaxBy]
    rcases List.mem_cons.mp hy with rfl | hy
    · refine le_trans ?_ (le_foldMaxBy key xs (if key a < key y then y else a))
      by_cases hc : key a < key y
      · simp [hc]
      · simp [hc]; exact le_of_not_lt hc
    · exact ih _ y hy

theorem amountsFound_range (text : List Char) :
    ∀ d ∈ amountsFound text, (1 : ℚ) / 100 ≤ decVal d ∧ decVal d ≤ 10000 := by
  intro d hd
  unfold amountsFound at hd
  rw [List.mem_filterMap] at hd
  obtain ⟨g, _hg, hbind⟩ := hd
  cases hp : parseDec (cleanAmount g) with
  | none => rw [hp] at hbind; cases hbind
  | some d0 =>
    rw [hp] at hbind
    simp only [Option.some_bind] at hbind
    by_cases hr : amountInRange d0
    · rw [if_pos hr] at hbind
      cases hbind
      unfold amountInRange at hr
      exact ⟨of_decide_eq_true (Bool.and_elim_left hr),
             of_decide_eq_true (Bool.and_elim_right hr)⟩
    · rw [if_neg hr] at hbind; cases hbind

/-! ## Claim C1 -/

/-- C1: for every input text, `_extract_amount` collects the matches of
the ordered amount patterns, discards values outside the sane range
[0.01, 10000.00] (`amountsFound`), and returns the maximum surviving
value — an element of the surviving list that bounds every survivor —
falling back to the sentinel Decimal('0.01') when nothing survives; in
particular a text containing "TOTAL: $23.47" and a line item "$5.00"
yields 23.47. -/
theorem amount_extraction_spec :
    (∀ text : List Char,
      ((1 : ℚ) / 100 ≤ decVal (extract_amount text))
      ∧ (amountsFound text = [] → extract_amount text = ⟨1, 2⟩)
      ∧ (∀ a ∈ amountsFound text, decVal a ≤ decVal (extract_amount text))
      ∧ (amountsFound text ≠ [] → extract_amount text ∈ amountsFound text))
    ∧ extract_amount "STORE\nTOTAL: $23.47\nItem $5.00".data = ⟨2347, 2⟩ := by
  constructor
  · intro text
    cases h : amountsFound text with
    | nil =>
      have he : extract_amount text = ⟨1, 2⟩ := by
        unfold extract_amount
        rw [h]
      refine ⟨?_, fun _ => he, ?_, ?_⟩
      · rw [he]; norm_num [decVal]
      · intro x hx; exact absurd hx (List.not_mem_nil x)
      · intro hne; exact absurd rfl hne
    | cons a as =>
      have he : extract_amount text = foldMaxBy decVal a as := by
        unfold extract_amount
        rw [h]
      have hmem : extract_amount text ∈ amountsFound text := by
        rw [he, h]
        rcases foldMaxBy_eq_or_mem decVal as a with h1 | h1
        · rw [h1]; exact List.mem_cons_self _ _
        · exact List.mem_cons_of_mem _ h1
      refine ⟨(amountsFound_range text _ hmem).1, ?_, ?_, fun _ => h ▸ hmem⟩
      · intro habs; exact absurd habs (List.cons_ne_nil a as)
      · intro x hx
        rcases List.mem_cons.mp hx with rfl | hx
        · rw [he]; exact le_foldMaxBy decVal as x
        · rw [he]; exact mem_le_foldMaxBy decVal as a x hx
  · with_unfolding_all rfl

/-- Witness for C1 at concrete inputs: a text with no surviving match
gets the sentinel. -/
theorem amount_extraction_spec_witness :
    amountsFound "no amounts here".data = []
    ∧ extract_amount "no amounts here".data = ⟨1, 2⟩ :=
  ⟨by with_unfolding_all rfl,
   (amount_extraction_spec.1 "no amounts here".data).2.1 (by with_unfolding_all rfl)⟩

theorem pyDateLe_refl (a : PyDate) : pyDateLe a a = true := by
  simp [pyDateLe]

theorem pyDateLe_trans {a b c : PyDate} (hab : pyDateLe a b = true)
    (hbc : pyDateLe b c = true) : pyDateLe a c = true := by
  simp only [pyDateLe, Bool.or_eq_true, Bool.and_eq_true, decide_eq_true_eq] at *
  omega

theorem pyDateLt_imp_le {a b : PyDate} (h : pyDateLt a b = true) :
    pyDateLe a b = true := by
  simp only [pyDateLt, pyDateLe, Bool.or_eq_true, Bool.and_eq_true,
    decide_eq_true_eq] at *
  omega

theorem pyDateLt_false_imp_le {a b : PyDate} (h : pyDateLt a b = false) :
    pyDateLe b a = true := by
  have h' : ¬ (pyDateLt a b = true) := by simp [h]
  simp only [pyDateLt, Bool.or_eq_true, Bool.and_eq_true, decide_eq_true_eq] at h'
  simp only [pyDateLe, Bool.or_eq_true, Bool.and_eq_true, decide_eq_true_eq]
  omega

theorem foldMaxDate_eq_or_mem :
    ∀ (l : List PyDate) (a : PyDate), foldMaxDate a l = a ∨ foldMaxDate a l ∈ l := by
  intro l
  induction l with
  | nil => intro a; exact Or.inl rfl
  | cons x xs ih =>
    intro a
    rw [foldMaxDate]
    rcases ih (if pyDateLt a x then x else a) with h | h
    · rw [h]
      by_cases hc : pyDateLt a x
      · simp [hc]
      · simp [hc]
    · exact Or.inr (List.mem_cons_of_mem _ h)

theorem le_foldMaxDate :
    ∀ (l : List PyDate) (a : PyDate), pyDateLe a (foldMaxDate a l) = true := by
  intro l
  induction l with
  | nil => intro a; exact pyDateLe_refl a
  | cons x xs ih =>
    intro a
    rw [foldMaxDate]
    refine pyDateLe_trans ?_ (ih (if pyDateLt a x then x else a))
    by_cases hc : pyDateLt a x
    · rw [if_pos hc]; exact pyDateLt_imp_le hc
    · rw [if_neg hc]; exact pyDateLe_refl a

theorem mem_le_foldMaxDate :
    ∀ (l : List PyDate) (a y : PyDate), y ∈ l →
      pyDateLe y (foldMaxDate a l) = true := by
  intro l
  induction l with
  | nil => intro a y hy; cases hy
  | cons x xs ih =>
    intro a y hy
    rw [foldMaxDate]
    rcases List.mem_cons.mp hy with rfl | hy
    · refine pyDateLe_trans ?_ (le_foldMaxDate xs (if pyDateLt a y then y else a))
      by_cases hc : pyDateLt a y
      · rw [if_pos hc]; exact pyDateLe_refl y
      · rw [if_neg hc]
        exact pyDateLt_false_imp_le (Bool.eq_false_iff.mpr hc)
    · exact ih _ y hy

theorem validDates_mem (parse : List Char → Option PyDate) (now : PyDate)
    (text : List Char) :
    ∀ d ∈ validDates parse now text, pyDateLe d now = true ∧ 2000 ≤ d.year := by
  intro d hd
  unfold validDates at hd
  rw [List.mem_filterMap] at hd
  obtain ⟨m, _hm, hbind⟩ := hd
  cases hp : parse m with
  | none => rw [hp] at hbind; cases hbind
  | some d0 =>
    rw [hp] at hbind
    simp only [Option.some_bind] at hbind
    by_cases hc : (pyDateLe d0 now && decide (2000 ≤ d0.year)) = true
    · rw [if_pos hc] at hbind
      cases hbind
      rw [Bool.and_eq_true] at hc
      exact ⟨hc.1, of_decide_eq_true hc.2⟩
    · rw [if_neg hc] at hbind; cases hbind

/-! ## Claim C2 -/

/-- C2: for every input text (and any behaviour of the external fuzzy
date parser), `_extract_date` keeps only parsed dates that are not in
the future and not before the historical horizon (calendar year 2000),
returns the most recent remaining date when one exists, never returns a
date outside [horizon, today], and falls back to the current date when
nothing validates. -/
theorem date_extraction_spec (parse : List Char → Option PyDate) (now : PyDate)
    (text : List Char) (hnow : 2000 ≤ now.year) :
    (pyDateLe (extract_date parse now text) now = true
      ∧ 2000 ≤ (extract_date parse now text).year)
    ∧ (∀ d ∈ validDates parse now text,
        pyDateLe d (extract_date parse now text) = true)
    ∧ (validDates parse now text ≠ [] →
        extract_date parse now text ∈ validDates parse now text)
    ∧ (validDates parse now text = [] → extract_date parse now text = now) := by
  cases h : validDates parse now text with
  | nil =>
    have he : extract_date parse now text = now := by
      unfold extract_date
      rw [h]
    refine ⟨⟨?_, ?_⟩, ?_, ?_, fun _ => he⟩
    · rw [he]; exact pyDateLe_refl now
    · rw [he]; exact hnow
    · intro d hd; exact absurd hd (List.not_mem_nil d)
    · intro hne; exact absurd rfl hne
  | cons a as =>
    have he : extract_date parse now text = foldMaxDate a as := by
      unfold extract_date
      rw [h]
    have hmem : extract_date parse now text ∈ validDates parse now text := by
      rw [he, h]
      rcases foldMaxDate_eq_or_mem as a with h1 | h1
      · rw [h1]; exact List.mem_cons_self _ _
      · exact List.mem_cons_of_mem _ h1
    have hprop := validDates_mem parse now text _ hmem
    refine ⟨⟨hprop.1, hprop.2⟩, ?_, fun _ => h ▸ hmem, ?_⟩
    · intro d hd
      rcases List.mem_cons.mp hd with rfl | hd
      · rw [he]; exact le_foldMaxDate as d
      · rw [he]; exact mem_le_foldMaxDate as a d hd
    · intro habs; exact absurd habs (List.cons_ne_nil a as)

/-- Witness for C2 at a concrete input: a future date and a pre-horizon
date next to one valid date; the valid one is selected. -/
theorem date_extraction_spec_witness :
    ((2000 ≤ sampleNow.year)
      ∧ pyDateLe (extract_date sampleParse sampleNow sampleDateText) sampleNow = true)
    ∧ extract_date sampleParse sampleNow sampleDateText = ⟨2024, 3, 10⟩ :=
  ⟨⟨by decide,
    (date_extraction_spec sampleParse sampleNow sampleDateText (by decide)).1.1⟩,
   by decide⟩

theorem pickFirst_some_ex {α β : Type} (f : α → Option β) :
    ∀ (l : List α) (b : β), pickFirst l f = some b → ∃ a ∈ l, f a = some b := by
  intro l
  induction l with
  | nil => intro b h; cases h
  | cons x xs ih =>
    intro b h
    rw [pickFirst] at h
    cases hf : f x with
    | some b0 =>
      rw [hf] at h
      cases h
      exact ⟨x, List.mem_cons_self _ _, hf⟩
    | none =>
      rw [hf] at h
      obtain ⟨a, ha, hfa⟩ := ih b h
      exact ⟨a, List.mem_cons_of_mem _ ha, hfa⟩

theorem pyTitleGo_length : ∀ (b : Bool) (w : List Char),
    (pyTitleGo b w).length = w.length := by
  intro b w
  induction w generalizing b with
  | nil => rfl
  | cons c cs ih => simp [pyTitleGo, ih]

theorem pyJoin_map_pyTitle_length :
    ∀ ws : List (List Char),
      (pyJoin [' '] (ws.map pyTitle)).length = (pyJoin [' '] ws).length := by
  intro ws
  induction ws with
  | nil => rfl
  | cons w ws ih =>
    cases ws with
    | nil => simp [pyJoin, pyTitle, pyTitleGo_length]
    | cons x xs =>
      simp only [List.map_cons, pyJoin, List.length_append] at *
      rw [pyTitle, pyTitleGo_length, ih]

theorem vendorFromLine_length {line v : List Char}
    (h : vendorFromLine line = some v) : 3 < v.length := by
  unfold vendorFromLine at h
  dsimp only at h
  split at h
  · split at h
    · cases h
      rename_i hc _
      rw [Bool.and_eq_true] at hc
      have h3 := of_decide_eq_true hc.2
      rw [pyJoin_map_pyTitle_length]
      exact h3
    · cases h
  · cases h

theorem take200_ne_nil {l : List Char} (h : l ≠ []) : l.take 200 ≠ [] := by
  cases l with
  | nil => exact absurd rfl h
  | cons c cs => simp [List.take]

/-! ## Claim C9 -/

/-- C9: `_extract_vendor` scans the first five non-empty lines, strips
non-word characters and stop-words, and returns the first surviving line
title-cased; it falls back to the raw first line (truncated to 200
characters) and, when there is no non-empty line at all, to the literal
"Unknown Vendor"; the result is never empty.  In particular the line
"  WALMART SUPERCENTER  " yields "Walmart Supercenter", and a first line
made only of stop-words falls back to that raw line. -/
theorem vendor_extraction_spec :
    extract_vendor "  WALMART SUPERCENTER  ".data = "Walmart Supercenter".data
    ∧ (∀ text, vendorLines text = [] →
        extract_vendor text = "Unknown Vendor".data)
    ∧ (∀ text, extract_vendor text ≠ [])
    ∧ extract_vendor "total store\nthank you".data = "total store".data := by
  refine ⟨by decide, ?_, ?_, by decide⟩
  · intro text h
    unfold extract_vendor
    rw [h]
  · intro text
    cases h : vendorLines text with
    | nil =>
      have he : extract_vendor text = "Unknown Vendor".data := by
        unfold extract_vendor
        rw [h]
      rw [he]
      decide
    | cons l0 rest =>
      have hl0 : l0 ≠ [] := by
        have hmem : l0 ∈ vendorLines text := h ▸ List.mem_cons_self _ _
        unfold vendorLines at hmem
        have hp := (List.mem_filter.mp hmem).2
        simp only [Bool.not_eq_true'] at hp
        intro habs
        rw [habs] at hp
        cases hp
      have he : extract_vendor text =
          match pickFirst ((l0 :: rest).take 5) vendorFromLine with
          | some v => v
          | none => if l0.isEmpty then "Unknown Vendor".data else l0.take 200 := by
        unfold extract_vendor
        rw [h]
      cases hp : pickFirst ((l0 :: rest).take 5) vendorFromLine with
      | some v =>
        rw [he, hp]
        show v ≠ []
        obtain ⟨x, _, hfx⟩ := pickFirst_some_ex vendorFromLine _ v hp
        have := vendorFromLine_length hfx
        exact List.ne_nil_of_length_pos (by omega)
      | none =>
        rw [he, hp]
        cases l0 with
        | nil => exact absurd rfl hl0
        | cons c cs =>
          show (c :: cs).take 200 ≠ []
          exact take200_ne_nil hl0

/-- Witness for C9 at a concrete input: the empty text has no non-empty
line and yields the "Unknown Vendor" sentinel. -/
theorem vendor_extraction_spec_witness :
    vendorLines "".data = [] ∧ extract_vendor "".data = "Unknown Vendor".data :=
  ⟨by decide, vendor_extraction_spec.2.1 "".data (by decide)⟩

theorem subWsGo_true_head :
    ∀ (cs : List Char) (d : Char) (ds : List Char),
      subWsGo true cs = d :: ds → isSp d = false := by
  intro cs
  induction cs with
  | nil => intro d ds h; cases h
  | cons c cs ih =>
    intro d ds h
    rw [subWsGo] at h
    by_cases hc : isSp c
    · rw [if_pos hc, if_pos rfl] at h
      exact ih d ds h
    · rw [if_neg hc] at h
      cases h
      exact Bool.eq_false_iff.mpr hc

theorem wsIsSpace_subWsGo :
    ∀ (cs : List Char) (b : Bool), wsIsSpace (subWsGo b cs) = true := by
  intro cs
  induction cs with
  | nil => intro b; rfl
  | cons c cs ih =>
    intro b
    rw [subWsGo]
    by_cases hc : isSp c
    · rw [if_pos hc]
      cases b
      · rw [if_neg (by simp)]
        have := ih true
        unfold wsIsSpace at *
        simp only [List.all_cons, this, Bool.and_true]
        simp
      · rw [if_pos rfl]
        exact ih true
    · rw [if_neg hc]
      have := ih false
      unfold wsIsSpace at *
      simp only [List.all_cons, this, Bool.and_true]
      simp [hc]

theorem noWsRun_subWsGo :
    ∀ (cs : List Char) (b : Bool), noWsRun (subWsGo b cs) = true := by
  intro cs
  induction cs with
  | nil => intro b; rfl
  | cons c cs ih =>
    intro b
    rw [subWsGo]
    by_cases hc : isSp c
    · rw [if_pos hc]
      cases b
      · rw [if_neg (by simp)]
        cases hX : subWsGo true cs with
        | nil => rfl
        | cons d ds =>
          have hd := subWsGo_true_head cs d ds hX
          have hrec := ih true
          rw [hX] at hrec
          rw [noWsRun, hrec, hd]
          simp
      · rw [if_pos rfl]
        exact ih true
    · rw [if_neg hc]
      cases hX : subWsGo false cs with
      | nil => rfl
      | cons d ds =>
        have hrec := ih false
        rw [hX] at hrec
        rw [noWsRun, hrec]
        simp [hc]

theorem subWsGo_false_ne_nil {cs : List Char} (h : cs ≠ []) :
    subWsGo false cs ≠ [] := by
  cases cs with
  | nil => exact absurd rfl h
  | cons c cs =>
    rw [subWsGo]
    by_cases hc : isSp c
    · rw [if_pos hc, if_neg (by simp)]
      simp
    · rw [if_neg hc]
      simp

theorem vendorField_inv {v v' : List Char} (h : vendorField v = .ok v') :
    v' ≠ [] ∧ v'.length ≤ 200 ∧ noWsRun v' = true ∧ wsIsSpace v' = true := by
  unfold vendorField at h
  by_cases h1 : v.length < 1
  · rw [if_pos h1] at h; cases h
  rw [if_neg h1] at h
  by_cases h2 : 200 < v.length
  · rw [if_pos h2] at h; cases h
  rw [if_neg h2] at h
  by_cases h3 : (pyStrip v).isEmpty = true
  · rw [if_pos h3] at h; cases h
  rw [if_neg h3] at h
  dsimp only at h
  by_cases h4 : 200 < (subWs (pyStrip v)).length
  · rw [if_pos h4] at h; cases h
  rw [if_neg h4] at h
  cases h
  have hne : pyStrip v ≠ [] := by
    intro habs
    rw [habs] at h3
    exact h3 rfl
  exact ⟨subWsGo_false_ne_nil hne, by omega, noWsRun_subWsGo _ _, wsIsSpace_subWsGo _ _⟩

theorem dateField_inv {now v d : PyDate} (h : dateField now v = .ok d) :
    pyDateLe (tenYearsBefore now) d = true ∧ pyDateLe d now = true := by
  unfold dateField at h
  by_cases h1 : pyDateLe v now
  · rw [if_neg (by simp [h1])] at h
    by_cases h2 : pyDateLt v (tenYearsBefore now)
    · rw [if_pos h2] at h; cases h
    · rw [if_neg h2] at h
      cases h
      exact ⟨pyDateLt_false_imp_le (Bool.eq_false_iff.mpr h2), h1⟩
  · rw [if_pos (by simp [h1])] at h
    cases h

theorem decVal_pos_man {d : Dec} (h : 0 < decVal d) : 0 < d.man := by
  by_contra hc
  push_neg at hc
  have h10 : (0 : ℚ) < (10 : ℚ) ^ d.exp := by positivity
  have hle : decVal d ≤ 0 := by
    unfold decVal
    exact div_nonpos_iff.mpr (Or.inr ⟨by exact_mod_cast hc, le_of_lt h10⟩)
  linarith

theorem amountField_inv {v a : Dec} (h : amountField v = .ok a) :
    0 < a.man ∧ a.exp = 2 := by
  unfold amountField at h
  by_cases h1 : decVal v ≤ 0
  · rw [if_pos h1] at h; cases h
  rw [if_neg h1] at h
  by_cases h2 : 2 < v.exp
  · rw [if_pos h2] at h; cases h
  rw [if_neg h2] at h
  by_cases h3 : 10 < numDigits v.man.natAbs
  · rw [if_pos h3] at h; cases h
  rw [if_neg h3] at h
  rw [if_neg h1] at h
  cases h
  have hexp : v.exp ≤ 2 := by omega
  have hman : 0 < v.man := decVal_pos_man (lt_of_not_le h1)
  constructor
  · rw [quantize2, if_pos hexp]
    exact mul_pos hman (pow_pos (by norm_num) _)
  · rw [quantize2, if_pos hexp]

theorem rndHalfEven_nonneg {q : ℚ} (h : 0 ≤ q) : 0 ≤ rndHalfEven q := by
  unfold rndHalfEven
  have h0 : (0 : ℤ) ≤ ⌊q⌋ := Int.floor_nonneg.mpr h
  split_ifs <;> omega

theorem rndHalfEven_le_of_le {q : ℚ} {B : ℤ} (h : q ≤ (B : ℚ)) :
    rndHalfEven q ≤ B := by
  unfold rndHalfEven
  have hfl : ⌊q⌋ ≤ B := by
    have hmono := Int.floor_le_floor h
    rwa [Int.floor_intCast] at hmono
  have hflq : (⌊q⌋ : ℚ) ≤ q := Int.floor_le q
  split_ifs with hf1 hf2 hev
  · exact hfl
  · have hlt : (⌊q⌋ : ℚ) < (B : ℚ) := lt_of_lt_of_le (by linarith) h
    have : ⌊q⌋ < B := by exact_mod_cast hlt
    omega
  · exact hfl
  · have hlt : (⌊q⌋ : ℚ) < (B : ℚ) := lt_of_lt_of_le (by linarith) h
    have : ⌊q⌋ < B := by exact_mod_cast hlt
    omega

theorem round3_invariant {v : ℚ} (h0 : 0 ≤ v) (h1 : v ≤ 1) :
    0 ≤ round3 v ∧ round3 v ≤ 1 ∧ (round3 v * 1000).den = 1 := by
  have hge : (0 : ℤ) ≤ rndHalfEven (v * 1000) := rndHalfEven_nonneg (by positivity)
  have hle : rndHalfEven (v * 1000) ≤ (1000 : ℤ) :=
    rndHalfEven_le_of_le (by push_cast; linarith)
  unfold round3
  refine ⟨?_, ?_, ?_⟩
  · apply div_nonneg _ (by norm_num)
    exact_mod_cast hge
  · rw [div_le_one (by norm_num)]
    exact_mod_cast hle
  · rw [div_mul_cancel₀ _ (by norm_num : (1000 : ℚ) ≠ 0)]
    exact Rat.den_intCast _

theorem confidenceField_inv {v c : ℚ} (h : confidenceField v = .ok c) :
    0 ≤ c ∧ c ≤ 1 ∧ (c * 1000).den = 1 := by
  unfold confidenceField at h
  by_cases h1 : v < 0
  · rw [if_pos h1] at h; cases h
  rw [if_neg h1] at h
  by_cases h2 : 1 < v
  · rw [if_pos h2] at h; cases h
  rw [if_neg h2] at h
  cases h
  exact round3_invariant (le_of_not_lt h1) (le_of_not_lt h2)

theorem mkReceipt_inv {now : PyDate} {vendor : List Char} {td : PyDate}
    {amount : Dec} {cat : Category} {cur : Currency} {sf : List Char}
    {et : Option (List Char)} {conf : ℚ} {r : Receipt}
    (h : mkReceipt now vendor td amount cat cur sf et conf = .ok r) :
    ReceiptInv now r := by
  unfold mkReceipt at h
  cases hv : vendorField vendor with
  | error e => rw [hv] at h; simp [bind, Except.bind] at h
  | ok v' =>
  rw [hv] at h
  simp only [bind, Except.bind] at h
  cases hd : dateField now td with
  | error e => rw [hd] at h; simp [bind, Except.bind] at h
  | ok d' =>
  rw [hd] at h
  simp only [bind, Except.bind] at h
  cases ha : amountField amount with
  | error e => rw [ha] at h; simp [bind, Except.bind] at h
  | ok a' =>
  rw [ha] at h
  simp only [bind, Except.bind] at h
  cases hs : sourceFileField sf with
  | error e => rw [hs] at h; simp [bind, Except.bind] at h
  | ok s' =>
  rw [hs] at h
  simp only [bind, Except.bind] at h
  cases hc : confidenceField conf with
  | error e => rw [hc] at h; simp [bind, Except.bind] at h
  | ok c' =>
  rw [hc] at h
  simp only [bind, Except.bind] at h
  cases h
  obtain ⟨hv1, hv2, hv3, hv4⟩ := vendorField_inv hv
  obtain ⟨hd1, hd2⟩ := dateField_inv hd
  obtain ⟨ha1, ha2⟩ := amountField_inv ha
  obtain ⟨hc1, hc2, hc3⟩ := confidenceField_inv hc
  exact ⟨hv1, hv2, hv3, hv4, ha1, ha2, hd1, hd2, hc1, hc2, hc3⟩

theorem setVendor_inv {now : PyDate} {r : Receipt} {v : List Char} {r' : Receipt}
    (hr : ReceiptInv now r) (h : setVendor r v = .ok r') : ReceiptInv now r' := by
  unfold setVendor at h
  cases hv : vendorField v with
  | error e => rw [hv] at h; simp [Except.map] at h
  | ok v' =>
    rw [hv] at h
    simp only [Except.map] at h
    cases h
    obtain ⟨h1, h2, h3, h4⟩ := vendorField_inv hv
    obtain ⟨_, _, _, _, h5, h6, h7, h8, h9, h10, h11⟩ := hr
    exact ⟨h1, h2, h3, h4, h5, h6, h7, h8, h9, h10, h11⟩

theorem setTransactionDate_inv {now : PyDate} {r : Receipt} {v : PyDate}
    {r' : Receipt} (hr : ReceiptInv now r)
    (h : setTransactionDate now r v = .ok r') : ReceiptInv now r' := by
  unfold setTransactionDate at h
  cases hv : dateField now v with
  | error e => rw [hv] at h; simp [Except.map] at h
  | ok d' =>
    rw [hv] at h
    simp only [Except.map] at h
    cases h
    obtain ⟨hd1, hd2⟩ := dateField_inv hv
    obtain ⟨h1, h2, h3, h4, h5, h6, _, _, h9, h10, h11⟩ := hr
    exact ⟨h1, h2, h3, h4, h5, h6, hd1, hd2, h9, h10, h11⟩

theorem setAmount_inv {now : PyDate} {r : Receipt} {v : Dec} {r' : Receipt}
    (hr : ReceiptInv now r) (h : setAmount r v = .ok r') : ReceiptInv now r' := by
  unfold setAmount at h
  cases hv : amountField v with
  | error e => rw [hv] at h; simp [Except.map] at h
  | ok a' =>
    rw [hv] at h
    simp only [Except.map] at h
    cases h
    obtain ⟨ha1, ha2⟩ := amountField_inv hv
    obtain ⟨h1, h2, h3, h4, _, _, h7, h8, h9, h10, h11⟩ := hr
    exact ⟨h1, h2, h3, h4, ha1, ha2, h7, h8, h9, h10, h11⟩

theorem setConfidence_inv {now : PyDate} {r : Receipt} {v : ℚ} {r' : Receipt}
    (hr : ReceiptInv now r) (h : setConfidence r v = .ok r') : ReceiptInv now r' := by
  unfold setConfidence at h
  cases hv : confidenceField v with
  | error e => rw [hv] at h; simp [Except.map] at h
  | ok c' =>
    rw [hv] at h
    simp only [Except.map] at h
    cases h
    obtain ⟨hc1, hc2, hc3⟩ := confidenceField_inv hv
    obtain ⟨h1, h2, h3, h4, h5, h6, h7, h8, _, _, _⟩ := hr
    exact ⟨h1, h2, h3, h4, h5, h6, h7, h8, hc1, hc2, hc3⟩

/-! ## Claim C10 -/

/-- C10: every `Receipt` passing construction satisfies the invariants
(non-empty vendor with collapsed whitespace and at most 200 characters,
strictly positive amount quantized to exactly two decimal places,
transaction date within [now minus 10 years, now], confidence score in
[0, 1] with three decimal places), and the invariants are preserved by
every validated field assignment (`validate_assignment`). -/
theorem receipt_invariants_spec :
    (∀ (now : PyDate) (vendor : List Char) (td : PyDate) (amount : Dec)
        (cat : Category) (cur : Currency) (sf : List Char)
        (et : Option (List Char)) (conf : ℚ) (r : Receipt),
        mkReceipt now vendor td amount cat cur sf et conf = .ok r →
        ReceiptInv now r)
    ∧ (∀ (now : PyDate) (r : Receipt) (v : List Char) (r' : Receipt),
        ReceiptInv now r → setVendor r v = .ok r' → ReceiptInv now r')
    ∧ (∀ (now : PyDate) (r : Receipt) (v : PyDate) (r' : Receipt),
        ReceiptInv now r → setTransactionDate now r v = .ok r' → ReceiptInv now r')
    ∧ (∀ (now : PyDate) (r : Receipt) (v : Dec) (r' : Receipt),
        ReceiptInv now r → setAmount r v = .ok r' → ReceiptInv now r')
    ∧ (∀ (now : PyDate) (r : Receipt) (v : ℚ) (r' : Receipt),
        ReceiptInv now r → setConfidence r v = .ok r' → ReceiptInv now r') :=
  ⟨fun _ _ _ _ _ _ _ _ _ _ h => mkReceipt_inv h,
   fun _ _ _ _ hr h => setVendor_inv hr h,
   fun _ _ _ _ hr h => setTransactionDate_inv hr h,
   fun _ _ _ _ hr h => setAmount_inv hr h,
   fun _ _ _ _ hr h => setConfidence_inv hr h⟩

set_option maxRecDepth 8000 in
/-- Witness for C10 at a concrete input: a raw vendor with doubled
internal whitespace is collapsed and all invariants hold. -/
theorem receipt_invariants_spec_witness :
    mkReceipt sampleNow "Some  Store".data ⟨2025, 1, 1⟩ ⟨2500, 2⟩ .other .usd
        "r.txt".data none (1 / 2) =
      .ok ⟨"Some Store".data, ⟨2025, 1, 1⟩, ⟨2500, 2⟩, .other, .usd,
        "r.txt".data, none, 1 / 2⟩
    ∧ ReceiptInv sampleNow ⟨"Some Store".data, ⟨2025, 1, 1⟩, ⟨2500, 2⟩, .other,
        .usd, "r.txt".data, none, 1 / 2⟩ :=
  ⟨by with_unfolding_all rfl,
   receipt_invariants_spec.1 sampleNow "Some  Store".data ⟨2025, 1, 1⟩ ⟨2500, 2⟩
     .other .usd "r.txt".data none (1 / 2)
     ⟨"Some Store".data, ⟨2025, 1, 1⟩, ⟨2500, 2⟩, .other, .usd,
       "r.txt".data, none, 1 / 2⟩
     (by with_unfolding_all rfl)⟩

theorem process_file_body_shape (env : Env) (filename : List Char) :
    ∀ r, process_file_body env filename = .ok r →
      (r.success = true ∧ r.receipt.isSome = true ∧ r.error_message = none
        ∧ r.warnings = [])
      ∨ (r.success = false ∧ r.receipt = none ∧ r.error_message.isSome = true
        ∧ r.warnings = []) := by
  intro r h
  unfold process_file_body at h
  simp only [bind, pure, Except.bind, Except.pure] at h
  by_cases h1 : validate_file env filename
  · rw [if_neg (by simp [h1])] at h
    cases hd : dispatchExtract env (lowerAll (pySuffix filename)) with
    | none =>
      rw [hd] at h
      cases h
      right; exact ⟨rfl, rfl, rfl, rfl⟩
    | some tc =>
      rw [hd] at h
      obtain ⟨text, confidence⟩ := tc
      dsimp only at h
      by_cases h2 : (pyStrip text).isEmpty
      · rw [if_pos h2] at h
        cases h
        right; exact ⟨rfl, rfl, rfl, rfl⟩
      · rw [if_neg h2] at h
        cases he : extract_receipt_data env text filename with
        | error e => rw [he] at h; simp at h
        | ok rc =>
          rw [he] at h
          dsimp only at h
          cases hc : setConfidence rc confidence with
          | error e => rw [hc] at h; simp at h
          | ok rc2 =>
            rw [hc] at h
            dsimp only at h
            cases h
            left; exact ⟨rfl, rfl, rfl, rfl⟩
  · rw [if_pos (by simp [h1])] at h
    cases h
    right; exact ⟨rfl, rfl, rfl, rfl⟩

/-! ## Claim C3 -/

/-- C3: `process_file` always produces a well-formed `ProcessingResult` —
either a success carrying a receipt and no error message, or a failure
carrying an error message and no receipt — and every exception raised
inside the pipeline body is converted by the outer handler into a
failure result rather than propagating. -/
theorem process_file_contract :
    ∀ (env : Env) (filename : List Char),
      (((process_file env filename).success = true
          ∧ (process_file env filename).receipt.isSome = true
          ∧ (process_file env filename).error_message = none)
        ∨ ((process_file env filename).success = false
          ∧ (process_file env filename).receipt = none
          ∧ (process_file env filename).error_message.isSome = true))
      ∧ (∀ e, process_file_body env filename = .error e →
          process_file env filename =
            { success := false,
              error_message := some ("Processing error: ".data ++ e) }) := by
  intro env filename
  constructor
  · cases hb : process_file_body env filename with
    | error e =>
      have hp : process_file env filename =
          { success := false,
            error_message := some ("Processing error: ".data ++ e) } := by
        unfold process_file
        rw [hb]
      rw [hp]
      right
      exact ⟨rfl, rfl, rfl⟩
    | ok r =>
      have hp : process_file env filename = r := by
        unfold process_file
        rw [hb]
      rw [hp]
      rcases process_file_body_shape env filename r hb with ⟨a, b, c, _⟩ | ⟨a, b, c, _⟩
      · exact Or.inl ⟨a, b, c⟩
      · exact Or.inr ⟨a, b, c⟩
  · intro e he
    unfold process_file
    rw [he]

set_option maxRecDepth 8000 in
/-- Witness for C3 at a concrete input: a receipt whose only date is
before the ten-year horizon makes the pydantic validator raise inside
the body, and the exception surfaces as a Failure result. -/
theorem process_file_contract_witness :
    process_file_body oldDateEnv "receipt.txt".data =
      .error "Transaction date is too far in the past".data
    ∧ process_file oldDateEnv "receipt.txt".data =
      { success := false,
        error_message := some ("Processing error: ".data
          ++ "Transaction date is too far in the past".data) } :=
  ⟨by with_unfolding_all rfl,
   (process_file_contract oldDateEnv "receipt.txt".data).2
     "Transaction date is too far in the past".data
     (by with_unfolding_all rfl)⟩

/-! ## Claim C7 -/

/-- C7 (amended): for every input whose lower-cased filename suffix is
not in the accepted set, `process_file` returns a Failure with no
receipt; its reason is the generic "File validation failed" message
(the format-specific message of the dispatch's else-branch is not
reached, because validation rejects the file first). -/
theorem unsupported_format_spec :
    ∀ (env : Env) (filename : List Char),
      supported_formats.contains (lowerAll (pySuffix filename)) = false →
      process_file env filename =
        { success := false,
          error_message := some "File validation failed".data } := by
  intro env filename h
  have hv : validate_file env filename = false := by
    unfold validate_file
    rw [if_pos (by rw [h]; rfl)]
  have hb : process_file_body env filename =
      .ok { success := false,
            error_message := some "File validation failed".data } := by
    unfold process_file_body
    simp only [bind, pure, Except.bind, Except.pure]
    rw [if_pos (by simp [hv])]
  unfold process_file
  rw [hb]

/-- Counterexample for C7 as stated: for the unsupported suffix ".docx"
the failure reason is the generic "File validation failed"; it does not
mention the offending format (neither the suffix nor the words
"Unsupported" or "format"), while the receipt is indeed absent. -/
theorem unsupported_format_counterexample :
    process_file baseEnv "file.docx".data =
      { success := false, error_message := some "File validation failed".data }
    ∧ (process_file baseEnv "file.docx".data).receipt = none
    ∧ containsSub "docx".data
        ((process_file baseEnv "file.docx".data).error_message.getD []) = false
    ∧ containsSub "Unsupported".data
        ((process_file baseEnv "file.docx".data).error_message.getD []) = false
    ∧ containsSub "format".data
        ((process_file baseEnv "file.docx".data).error_message.getD []) = false := by
  refine ⟨?_, ?_, ?_, ?_, ?_⟩ <;> with_unfolding_all rfl

/-- Witness for the amended C7 at a concrete input. -/
theorem unsupported_format_spec_witness :
    supported_formats.contains (lowerAll (pySuffix "file.docx".data)) = false
    ∧ process_file baseEnv "file.docx".data =
      { success := false,
        error_message := some "File validation failed".data } :=
  ⟨by decide, unsupported_format_spec baseEnv "file.docx".data (by decide)⟩

/-! ## Claim C8 -/

/-- C8: whenever the selected extraction path produces text whose strip
is empty, `process_file` returns the "No text could be extracted from
the file" Failure and no receipt is produced. -/
theorem empty_extraction_spec :
    ∀ (env : Env) (filename text : List Char) (confidence : ℚ),
      validate_file env filename = true →
      dispatchExtract env (lowerAll (pySuffix filename)) = some (text, confidence) →
      pyStrip text = [] →
      process_file env filename =
        { success := false,
          error_message := some "No text could be extracted from the file".data } := by
  intro env filename text confidence hv hd hs
  have hb : process_file_body env filename =
      .ok { success := false,
            error_message := some "No text could be extracted from the file".data } := by
    unfold process_file_body
    simp only [bind, pure, Except.bind, Except.pure]
    rw [if_neg (by simp [hv]), hd]
    dsimp only
    rw [if_pos (by rw [hs]; rfl)]
  unfold process_file
  rw [hb]

/-- Witness for C8 at a concrete input: a completely blank image (the
engine recognises no word at all). -/
theorem empty_extraction_spec_witness :
    validate_file blankImgEnv "blank.png".data = true
    ∧ dispatchExtract blankImgEnv (lowerAll (pySuffix "blank.png".data)) =
        some ([], 0)
    ∧ process_file blankImgEnv "blank.png".data =
      { success := false,
        error_message := some "No text could be extracted from the file".data } :=
  ⟨by with_unfolding_all rfl, by with_unfolding_all rfl,
   empty_extraction_spec blankImgEnv "blank.png".data [] 0
     (by with_unfolding_all rfl) (by with_unfolding_all rfl) rfl⟩

/-! ## Claim C5 -/

/-- C5 (amended): when the recognition engine raises, `_process_image`
returns empty text with zero confidence directly — there is no retry
with a simpler whole-image call — and the failure never propagates as
an exception. -/
theorem image_engine_failure_spec :
    ∀ (e : List Char) (simple : Except (List Char) (List Char)),
      process_image ⟨.error e, simple⟩ = ([], 0) := by
  intro e simple
  rfl

/-- Counterexample for C5 as stated: the engine raises while a simple
whole-image call would have produced the text "HELLO"; the adapter
still returns empty text with zero confidence, not the retry's text. -/
theorem image_engine_failure_counterexample :
    process_image engineFailImg = ([], 0)
    ∧ (process_image engineFailImg).1 ≠ "HELLO".data
    ∧ engineFailImg.simple = .ok "HELLO".data := by
  refine ⟨rfl, by decide, rfl⟩

/-! ## Claim C6 -/

/-- C6 (amended): when no date-shaped substring occurs in the text,
`_extract_date` returns the current date; but no warning is ever
attached — the warning list of every `process_file` result is empty. -/
theorem date_default_no_warning_spec :
    (∀ (parse : List Char → Option PyDate) (now : PyDate) (text : List Char),
        dateMatchGroups text = [] → extract_date parse now text = now)
    ∧ (∀ (env : Env) (filename : List Char),
        (process_file env filename).warnings = []) := by
  constructor
  · intro parse now text h
    have hv : validDates parse now text = [] := by
      unfold validDates
      rw [h]
      rfl
    unfold extract_date
    rw [hv]
  · intro env filename
    cases hb : process_file_body env filename with
    | error e =>
      have hp : process_file env filename =
          { success := false,
            error_message := some ("Processing error: ".data ++ e) } := by
        unfold process_file
        rw [hb]
      rw [hp]
    | ok r =>
      have hp : process_file env filename = r := by
        unfold process_file
        rw [hb]
      rw [hp]
      rcases process_file_body_shape env filename r hb with ⟨_, _, _, w⟩ | ⟨_, _, _, w⟩ <;>
        exact w

/-- Counterexample for C6 as stated: a successful run over a text with
no date-shaped substring defaults the transaction date to today, yet
the warning list of the Success result is empty — no "date defaulted"
warning exists anywhere. -/
theorem date_warning_counterexample :
    dateMatchGroups "STORE\nTOTAL: $23.47".data = []
    ∧ (process_file baseEnv "receipt.txt".data).success = true
    ∧ ((process_file baseEnv "receipt.txt".data).receipt.map
        Receipt.transaction_date) = some sampleNow
    ∧ (process_file baseEnv "receipt.txt".data).warnings = [] := by
  refine ⟨by decide, ?_, ?_, ?_⟩ <;> with_unfolding_all rfl

/-- Witness for the amended C6 at a concrete input. -/
theorem date_default_no_warning_spec_witness :
    dateMatchGroups "no dates".data = []
    ∧ extract_date (fun _ => none) sampleNow "no dates".data = sampleNow :=
  ⟨by decide,
   date_default_no_warning_spec.1 (fun _ => none) sampleNow "no dates".data
     (by decide)⟩

theorem list_sum_nonneg_q : ∀ l : List ℚ, (∀ x ∈ l, 0 ≤ x) → 0 ≤ l.sum := by
  intro l
  induction l with
  | nil => intro _; simp
  | cons x xs ih =>
    intro h
    rw [List.sum_cons]
    have hx := h x (List.mem_cons_self _ _)
    have hxs := ih (fun y hy => h y (List.mem_cons_of_mem _ hy))
    linarith

theorem list_sum_le_length_q : ∀ l : List ℚ, (∀ x ∈ l, x ≤ 1) → l.sum ≤ l.length := by
  intro l
  induction l with
  | nil => intro _; simp
  | cons x xs ih =>
    intro h
    rw [List.sum_cons, List.length_cons]
    have hx := h x (List.mem_cons_self _ _)
    have hxs := ih (fun y hy => h y (List.mem_cons_of_mem _ hy))
    push_cast
    linarith

/-! ## Claim C4 -/

/-- C4 (amended): the OCR fallback of `_process_pdf` is document-level,
not page-level: when the stripped concatenation of all pages' text
layers has at least 50 characters every page keeps its text-layer
result with confidence 1, and otherwise the whole document is
re-processed through `_pdf_to_ocr` (2x-zoom rasterization of every
page), whose confidence is the average — lying inside [0, 1] whenever
the page confidences do — of the per-page OCR confidences. -/
theorem pdf_fallback_spec :
    (∀ (pages : List (List Char)) (ocr : Nat → List Char × ℚ),
      (50 ≤ (pyStrip (pdfTextLayer pages)).length →
        process_pdf pages ocr = (pdfTextLayer pages, 1))
      ∧ ((pyStrip (pdfTextLayer pages)).length < 50 →
        process_pdf pages ocr = pdf_to_ocr pages ocr))
    ∧ (∀ (pages : List (List Char)) (ocr : Nat → List Char × ℚ),
      (∀ i, i < pages.length → 0 ≤ (ocr i).2 ∧ (ocr i).2 ≤ 1) →
      0 ≤ (pdf_to_ocr pages ocr).2 ∧ (pdf_to_ocr pages ocr).2 ≤ 1) := by
  constructor
  · intro pages ocr
    constructor
    · intro h
      unfold process_pdf
      rw [if_neg (by omega)]
    · intro h
      unfold process_pdf
      rw [if_pos h]
  · intro pages ocr h
    unfold pdf_to_ocr
    dsimp only
    set confs := (((List.range pages.length).map ocr).map (fun r => r.2)) with hconfs
    have hmem : ∀ x ∈ confs, 0 ≤ x ∧ x ≤ 1 := by
      intro x hx
      rw [hconfs] at hx
      rw [List.mem_map] at hx
      obtain ⟨r, hr, hrx⟩ := hx
      rw [List.mem_map] at hr
      obtain ⟨i, hi, hir⟩ := hr
      rw [List.mem_range] at hi
      subst hir
      subst hrx
      exact h i hi
    by_cases hc : confs.isEmpty
    · rw [if_pos hc]
      norm_num
    · rw [if_neg hc]
      have hlen : 0 < confs.length := by
        have hne : confs ≠ [] := by
          intro hnil
          exact hc (by rw [hnil]; rfl)
        exact List.length_pos.mpr hne
      have hnn : 0 ≤ confs.sum :=
        list_sum_nonneg_q confs (fun x hx => (hmem x hx).1)
      have hub : confs.sum ≤ confs.length :=
        list_sum_le_length_q confs (fun x hx => (hmem x hx).2)
      have hlenq : (0 : ℚ) < confs.length := by exact_mod_cast hlen
      constructor
      · exact div_nonneg hnn (le_of_lt hlenq)
      · rw [div_le_one hlenq]
        exact hub

/-- Counterexample for C4 as stated: in a two-page PDF whose second page
has an empty text layer (far below the 50-character threshold) but
whose first page is rich, no page transitions to OCR: the output is the
plain text layer with confidence 1, the OCR text of page 2 is absent,
and the OCR confidence 1/2 is not blended in. -/
theorem pdf_fallback_counterexample :
    (samplePdfPages.getD 1 []).length < 50
    ∧ 50 ≤ (pyStrip (pdfTextLayer samplePdfPages)).length
    ∧ process_pdf samplePdfPages samplePdfOcr = (pdfTextLayer samplePdfPages, 1)
    ∧ containsSub "OCRTEXT".data (process_pdf samplePdfPages samplePdfOcr).1 = false
    ∧ (process_pdf samplePdfPages samplePdfOcr).2 ≠ 1 / 2 := by
  refine ⟨by decide, by decide, by with_unfolding_all rfl, by with_unfolding_all rfl, ?_⟩
  rw [show (process_pdf samplePdfPages samplePdfOcr).2 = 1 from by with_unfolding_all rfl]
  norm_num

/-- Witness for the amended C4 at concrete inputs: the sample document
keeps its text layer, and a short document is OCR'd with the average
confidence. -/
theorem pdf_fallback_spec_witness :
    (50 ≤ (pyStrip (pdfTextLayer samplePdfPages)).length
      ∧ process_pdf samplePdfPages samplePdfOcr =
          (pdfTextLayer samplePdfPages, 1))
    ∧ ((pyStrip (pdfTextLayer ["tiny".data])).length < 50
      ∧ process_pdf ["tiny".data] samplePdfOcr =
          pdf_to_ocr ["tiny".data] samplePdfOcr) :=
  ⟨⟨by decide,
    (pdf_fallback_spec.1 samplePdfPages samplePdfOcr).1 (by decide)⟩,
   ⟨by decide,
    (pdf_fallback_spec.1 ["tiny".data] samplePdfOcr).2 (by decide)⟩⟩
